/-
Verification of the layout placement engine of `architect_layout.py`
(House-Architectural-Layout-Project).

The engine is embedded shallowly over exact rationals: Python floats are
modelled as ℚ, and Python's `round` (round-half-to-even, "banker's
rounding") is modelled explicitly by `roundHalfEven`.  Grid cell counts
are natural numbers (the source's `max(1, int(round(...)))` guarantees
they are positive integers); the buildable dimensions `build_w`/`build_h`
are integers before the positivity guard, as in the source.
-/
import Mathlib

/-- Python's `round` for a rational: round to the nearest integer, ties
going to the even neighbour (`round(2.5) == 2`, `round(3.5) == 4`). -/
def roundHalfEven (q : ℚ) : ℤ :=
  if q - ⌊q⌋ = 1/2 then (if ⌊q⌋ % 2 = 0 then ⌊q⌋ else ⌊q⌋ + 1)
  else ⌊q + 1/2⌋

/-- `max(1, int(round(meters / cell)))` — the per-axis cell conversion the
source applies both in `to_grid` and per room inside the placement loop
(lines 91–92). -/
def toCells (meters cell : ℚ) : ℕ :=
  (max 1 (roundHalfEven (meters / cell))).toNat

/-- `to_grid(meters, snap_cm)` (line 35–37): `cell = snap_cm / 100`;
returns `max(1, int(round(meters / cell)))`.  The source also returns
`cell`; we model that second component by `cellSize` below. -/
def to_grid (meters snap_cm : ℚ) : ℕ :=
  toCells meters (snap_cm / 100)

/-- The cell size in meters derived from the grid snap (line 36). -/
def cellSize (snap_cm : ℚ) : ℚ := snap_cm / 100

/-- A room requirement as it enters the placement loop (line 90):
name together with continuous width and height in meters. -/
structure RoomReq where
  name : String
  w_m : ℚ
  h_m : ℚ
deriving DecidableEq, Repr

/-- `layout[name] = (cursor_x, cursor_y, w_cells, h_cells)` (line 103): an
integer cell-space rectangle.  The source stores these in a dict keyed by
name; we keep them in insertion order (names are distinct in the app, so
the dict holds exactly these entries). -/
structure PlacedRoom where
  name : String
  grid_x : ℕ
  grid_y : ℕ
  grid_w : ℕ
  grid_h : ℕ
deriving DecidableEq, Repr

/-- The mutable state of the greedy placement loop (lines 85–88), plus the
accumulated placements and the rooms that triggered the overflow warning
(line 100). -/
structure PackState where
  cursor_x : ℕ
  cursor_y : ℕ
  max_row_height : ℕ
  layout : List PlacedRoom
  overflow : List String
deriving DecidableEq, Repr

/-- The initial cursor state (lines 85–88). -/
def initState : PackState :=
  { cursor_x := 0, cursor_y := 0, max_row_height := 0, layout := [], overflow := [] }

/-- The shelf-wrap step (lines 94–97): if the room does not fit in the
remainder of the current row, reset `cursor_x` and move the cursor down by
`max_row_height`. -/
def shelfWrap (build_w : ℕ) (st : PackState) (w_cells : ℕ) : PackState :=
  if build_w < st.cursor_x + w_cells then
    { st with cursor_x := 0, cursor_y := st.cursor_y + st.max_row_height,
              max_row_height := 0 }
  else st

/-- One iteration of the placement loop (lines 90–105) on a room already
converted to cells: shelf-wrap if needed, then either record overflow
(lines 99–101) or place the room and advance the cursor (lines 103–105). -/
def placeStep (build_w build_h : ℕ) (st : PackState) (room : String × ℕ × ℕ) :
    PackState :=
  let name := room.1
  let w_cells := room.2.1
  let h_cells := room.2.2
  let st1 := shelfWrap build_w st w_cells
  if build_h < st1.cursor_y + h_cells then
    { st1 with overflow := st1.overflow ++ [name] }
  else
    { st1 with
      layout := st1.layout ++
        [{ name := name, grid_x := st1.cursor_x, grid_y := st1.cursor_y,
           grid_w := w_cells, grid_h := h_cells }],
      cursor_x := st1.cursor_x + w_cells,
      max_row_height := max st1.max_row_height h_cells }

/-- The placement loop over rooms already given in cells. -/
def packCells (build_w build_h : ℕ) (rooms : List (String × ℕ × ℕ)) : PackState :=
  rooms.foldl (placeStep build_w build_h) initState

/-- The placement loop as written (lines 90–105): each room's meter
dimensions are converted to cells inside the loop (lines 91–92) with the
same `max(1, round(_ / cell))` rule as `to_grid`. -/
def packRooms (build_w build_h : ℕ) (cell : ℚ) (rooms : List RoomReq) : PackState :=
  rooms.foldl
    (fun st r => placeStep build_w build_h st (r.name, toCells r.w_m cell, toCells r.h_m cell))
    initState

/-- The sort key of line 82: the continuous meter area `w_m * h_m`. -/
def areaKey (r : RoomReq) : ℚ := r.w_m * r.h_m

/-- Insert a room into an area-descending list, before the first element
of smaller-or-equal area: this is where an element that stood earlier in
the input list lands relative to equal-area elements, so the overall sort
is the stable descending sort of Python's `list.sort(key, reverse=True)`. -/
def insertRoomDesc (x : RoomReq) : List RoomReq → List RoomReq
  | [] => [x]
  | a :: t => if areaKey a ≤ areaKey x then x :: a :: t else a :: insertRoomDesc x t

/-- `rooms.sort(key=lambda x: x[1]*x[2], reverse=True)` (line 82): stable
sort by meter area, largest first. -/
def sortRoomsDesc : List RoomReq → List RoomReq
  | [] => []
  | x :: l => insertRoomDesc x (sortRoomsDesc l)

/-- The inputs of one generation request (sidebar values, lines 14–20),
together with the room list as it stands at line 82.  The source builds
that list (lines 72–79) from the car porch dimensions and `area_to_dims`
of the area-specified rooms before sorting; the claims under verification
concern the engine from the sort onwards, so the list is taken as input
here, covering every list the builder can produce. -/
structure LayoutInput where
  plot_width : ℚ
  plot_depth : ℚ
  front_setback : ℚ
  rear_setback : ℚ
  left_setback : ℚ
  right_setback : ℚ
  grid_snap_cm : ℚ
  rooms : List RoomReq
deriving DecidableEq, Repr

/-- `build_w = grid_w - left_c - right_c` (line 64), an integer that may
be non-positive before the guard of line 67. -/
def build_w (inp : LayoutInput) : ℤ :=
  (to_grid inp.plot_width inp.grid_snap_cm : ℤ)
    - to_grid inp.left_setback inp.grid_snap_cm
    - to_grid inp.right_setback inp.grid_snap_cm

/-- `build_h = grid_h - front_c - rear_c` (line 65). -/
def build_h (inp : LayoutInput) : ℤ :=
  (to_grid inp.plot_depth inp.grid_snap_cm : ℤ)
    - to_grid inp.front_setback inp.grid_snap_cm
    - to_grid inp.rear_setback inp.grid_snap_cm

/-- The only abort of the request (lines 67–69): `st.error("Setbacks too
large — no buildable space."); st.stop()`. -/
inductive LayoutError where
  | noBuildableSpace
deriving DecidableEq, Repr

/-- `sum(w*h*cell_m*cell_m for (_, _, w, h) in layout.values())`
(line 108). -/
def built_area (cell : ℚ) (layout : List PlacedRoom) : ℚ :=
  (layout.map fun r => (r.grid_w : ℚ) * r.grid_h * cell * cell).sum

/-- Everything the engine hands to the rendering layer: the placements and
overflow names, the cell size, the buildable dimensions, and the coverage
percentage of line 110. -/
structure LayoutResult where
  layout : List PlacedRoom
  overflow : List String
  cell_m : ℚ
  bw : ℕ
  bh : ℕ
  coverage : ℚ
deriving DecidableEq, Repr

/-- The final state of the placement loop for a request that passed the
buildable-space guard: rooms sorted by meter area (line 82), then packed
into the `build_w × build_h` grid. -/
def packedState (inp : LayoutInput) : PackState :=
  packRooms (build_w inp).toNat (build_h inp).toNat
    (cellSize inp.grid_snap_cm) (sortRoomsDesc inp.rooms)

/-- The generation request (lines 55–110): discretize the plot and the
setbacks, guard against a non-positive buildable grid, sort the rooms by
meter area, run the greedy placement loop, and report coverage
(line 110: `coverage = built_area / total_area * 100`). -/
def generateLayout (inp : LayoutInput) : Except LayoutError LayoutResult :=
  if build_w inp ≤ 0 ∨ build_h inp ≤ 0 then .error .noBuildableSpace
  else .ok
    { layout := (packedState inp).layout,
      overflow := (packedState inp).overflow,
      cell_m := cellSize inp.grid_snap_cm,
      bw := (build_w inp).toNat, bh := (build_h inp).toNat,
      coverage := built_area (cellSize inp.grid_snap_cm) (packedState inp).layout
        / (inp.plot_width * inp.plot_depth) * 100 }

/-- Scenario A of the spec: the sidebar defaults for plot and setbacks,
with the 3.2 m × 5.5 m car porch as the room under scrutiny. -/
def scenarioA : LayoutInput :=
  { plot_width := 14, plot_depth := 24, front_setback := 9/2,
    rear_setback := 3, left_setback := 2, right_setback := 2,
    grid_snap_cm := 50, rooms := [⟨"Car Porch", 16/5, 11/2⟩] }

/-- Modelled from the spec's words (§4.3 step 2: "Sort the room list by
`w_cells * h_cells` descending", stable) for comparison with the source's
sort: the key is the grid-cell area after conversion, not the meter
area. -/
def cellAreaKey (cell : ℚ) (r : RoomReq) : ℕ :=
  toCells r.w_m cell * toCells r.h_m cell

/-- Modelled from the spec's words: stable insertion for the cell-area
descending order. -/
def insertRoomDescCells (cell : ℚ) (x : RoomReq) : List RoomReq → List RoomReq
  | [] => [x]
  | a :: t =>
    if cellAreaKey cell a ≤ cellAreaKey cell x then x :: a :: t
    else a :: insertRoomDescCells cell x t

/-- Modelled from the spec's words: the stable descending sort by
grid-cell area that §4.3 step 2 prescribes. -/
def sortRoomsByCellArea (cell : ℚ) : List RoomReq → List RoomReq
  | [] => []
  | x :: l => insertRoomDescCells cell x (sortRoomsByCellArea cell l)

/-- The packed result of Scenario A: the car porch occupies 6 × 11 cells
at the origin; coverage is 16.5 m² of 336 m². -/
def scenarioARes : LayoutResult :=
  { layout := [⟨"Car Porch", 0, 0, 6, 11⟩], overflow := [],
    cell_m := 1/2, bw := 20, bh := 33, coverage := 275/56 }

/-- Scenario B of the spec: setbacks `left = right = 7` consume the whole
14 m plot width. -/
def scenarioB : LayoutInput :=
  { plot_width := 14, plot_depth := 24, front_setback := 9/2,
    rear_setback := 3, left_setback := 7, right_setback := 7,
    grid_snap_cm := 50, rooms := [⟨"Car Porch", 16/5, 11/2⟩] }

/-- A buildable 2 × 5 grid (plot 4 m × 7 m, zero setbacks — each still
one cell — snap 100 cm) asked to hold a room 3 m wide: wider than the
buildable width. -/
def wideRoomInput : LayoutInput :=
  { plot_width := 4, plot_depth := 7, front_setback := 0, rear_setback := 0,
    left_setback := 0, right_setback := 0, grid_snap_cm := 100,
    rooms := [⟨"Wide", 3, 1⟩] }

/-- What the engine returns on `wideRoomInput`: the 3-cell-wide room is
placed at the origin of the 2-cell-wide grid, overhanging it. -/
def wideRoomRes : LayoutResult :=
  { layout := [⟨"Wide", 0, 0, 3, 1⟩], overflow := [],
    cell_m := 1, bw := 2, bh := 5, coverage := 75/7 }

/-- Scenario A with a negative front setback: a measurement the spec's
error taxonomy says must be rejected as `InvalidMeasurement`. -/
def negSetbackInput : LayoutInput :=
  { plot_width := 14, plot_depth := 24, front_setback := -3,
    rear_setback := 3, left_setback := 2, right_setback := 2,
    grid_snap_cm := 50, rooms := [⟨"Car Porch", 16/5, 11/2⟩] }

/-- What the engine returns on `negSetbackInput`: the negative setback is
clamped to one cell (`build_h = 48 - 1 - 6 = 41`) and the request
succeeds. -/
def negSetbackRes : LayoutResult :=
  { layout := [⟨"Car Porch", 0, 0, 6, 11⟩], overflow := [],
    cell_m := 1/2, bw := 20, bh := 41, coverage := 275/56 }

/-- Scenario A with a zero left setback, for the one-cell-subtraction
consequence of `to_grid 0 = 1`. -/
def zeroSetbackInput : LayoutInput :=
  { plot_width := 14, plot_depth := 24, front_setback := 9/2,
    rear_setback := 3, left_setback := 0, right_setback := 2,
    grid_snap_cm := 50, rooms := [] }

/-- Two rooms whose meter-area order and cell-area order disagree at
cell size 1 m: "A" is 2.4 m × 2.4 m (5.76 m², 2 × 2 = 4 cells) and
"B" is 1.6 m × 3.4 m (5.44 m², 2 × 3 = 6 cells). -/
def roomA : RoomReq := ⟨"A", 12/5, 12/5⟩

/-- See `roomA`. -/
def roomB : RoomReq := ⟨"B", 8/5, 17/5⟩

/-- Two placed rooms are disjoint when they do not share an interior
cell: their open x-intervals or open y-intervals do not intersect. -/
def roomsDisjoint (a b : PlacedRoom) : Prop :=
  a.grid_x + a.grid_w ≤ b.grid_x ∨ b.grid_x + b.grid_w ≤ a.grid_x ∨
    a.grid_y + a.grid_h ≤ b.grid_y ∨ b.grid_y + b.grid_h ≤ a.grid_y

instance : DecidableRel roomsDisjoint := fun a b => by
  unfold roomsDisjoint; infer_instance

/-- The inductive invariant of the placement loop: placements are
pairwise disjoint and fit vertically, and every placement is either
entirely above the current shelf line or sits on the current shelf to the
left of the cursor, no taller than the running row height. -/
def PackInv (bh : ℕ) (st : PackState) : Prop :=
  st.layout.Pairwise roomsDisjoint ∧
  (∀ r ∈ st.layout, r.grid_y + r.grid_h ≤ bh) ∧
  (∀ r ∈ st.layout,
    r.grid_y + r.grid_h ≤ st.cursor_y ∨
      (r.grid_y = st.cursor_y ∧ r.grid_x + r.grid_w ≤ st.cursor_x ∧
        r.grid_h ≤ st.max_row_height))

theorem roundHalfEven_int_add_half (n : ℤ) :
    roundHalfEven ((n : ℚ) + 1/2) = if n % 2 = 0 then n else n + 1 := by
  have hfloor : ⌊(n : ℚ) + 1/2⌋ = n := by
    rw [Int.floor_int_add]
    norm_num
  have hfrac : ((n : ℚ) + 1/2) - ⌊(n : ℚ) + 1/2⌋ = 1/2 := by
    rw [hfloor]; ring
  unfold roundHalfEven
  rw [if_pos hfrac, hfloor]

theorem roundHalfEven_nonpos {q : ℚ} (hq : q ≤ 0) : roundHalfEven q ≤ 0 := by
  unfold roundHalfEven
  split_ifs with h1 h2
  · have hcast : (⌊q⌋ : ℚ) = q - 1/2 := by linarith
    have hneg : ⌊q⌋ < 0 := by
      have : (⌊q⌋ : ℚ) < 0 := by rw [hcast]; linarith
      exact_mod_cast this
    omega
  · have hcast : (⌊q⌋ : ℚ) = q - 1/2 := by linarith
    have hneg : ⌊q⌋ < 0 := by
      have : (⌊q⌋ : ℚ) < 0 := by rw [hcast]; linarith
      exact_mod_cast this
    omega
  · have hle : ⌊q + 1/2⌋ ≤ ⌊(1/2 : ℚ)⌋ := Int.floor_mono (by linarith)
    have h0 : ⌊(1/2 : ℚ)⌋ = 0 := by norm_num
    omega

theorem toCells_of_ratio_nonpos {m cell : ℚ} (h : m / cell ≤ 0) :
    toCells m cell = 1 := by
  unfold toCells
  have hr := roundHalfEven_nonpos h
  rw [max_eq_left (le_trans hr zero_le_one)]
  rfl

/-- `to_grid` maps a zero measurement to one cell, for any snap size. -/
theorem to_grid_zero (snap_cm : ℚ) : to_grid 0 snap_cm = 1 := by
  unfold to_grid
  exact toCells_of_ratio_nonpos (by rw [zero_div])

/-- At an exact half-cell boundary the conversion rounds to the even
neighbour, floored at one cell. -/
theorem toCells_half_boundary (m cell : ℚ) (n : ℤ) (h : m / cell = n + 1/2) :
    toCells m cell = (max 1 (if n % 2 = 0 then n else n + 1)).toNat := by
  unfold toCells
  rw [h, roundHalfEven_int_add_half]

theorem insertRoomDesc_perm (x : RoomReq) (l : List RoomReq) :
    (insertRoomDesc x l).Perm (x :: l) := by
  induction l with
  | nil => exact .refl _
  | cons a t ih =>
    unfold insertRoomDesc
    split_ifs
    · exact .refl _
    · exact ((ih.cons a).trans (List.Perm.swap x a t))

theorem sortRoomsDesc_perm (l : List RoomReq) : (sortRoomsDesc l).Perm l := by
  induction l with
  | nil => exact .refl _
  | cons x t ih =>
    exact (insertRoomDesc_perm x (sortRoomsDesc t)).trans (ih.cons x)

theorem insertRoomDesc_sorted {l : List RoomReq}
    (h : l.Sorted fun a b => areaKey b ≤ areaKey a) (x : RoomReq) :
    (insertRoomDesc x l).Sorted fun a b => areaKey b ≤ areaKey a := by
  induction l with
  | nil => simp [insertRoomDesc]
  | cons a t ih =>
    rw [List.sorted_cons] at h
    unfold insertRoomDesc
    split_ifs with hc
    · rw [List.sorted_cons]
      refine ⟨?_, List.sorted_cons.mpr h⟩
      intro b hb
      rcases List.mem_cons.mp hb with hb | hb
      · exact hb ▸ hc
      · exact le_trans (h.1 b hb) hc
    · rw [List.sorted_cons]
      refine ⟨?_, ih h.2⟩
      intro b hb
      have hb2 : b ∈ x :: t := (insertRoomDesc_perm x t).mem_iff.mp hb
      rcases List.mem_cons.mp hb2 with hb2 | hb2
      · exact hb2 ▸ le_of_lt (lt_of_not_le hc)
      · exact h.1 b hb2

theorem sortRoomsDesc_sorted (l : List RoomReq) :
    (sortRoomsDesc l).Sorted fun a b => areaKey b ≤ areaKey a := by
  induction l with
  | nil => simp [sortRoomsDesc]
  | cons x t ih => exact insertRoomDesc_sorted ih x

theorem insertRoomDesc_filter_key (x : RoomReq) (l : List RoomReq) (k : ℚ) :
    (insertRoomDesc x l).filter (fun r => areaKey r = k) =
      (x :: l).filter (fun r => areaKey r = k) := by
  induction l with
  | nil => rfl
  | cons a t ih =>
    unfold insertRoomDesc
    split_ifs with hc
    · rfl
    · have hlt : areaKey x < areaKey a := lt_of_not_le hc
      by_cases hx : areaKey x = k <;> by_cases ha : areaKey a = k
      · exact absurd (le_of_eq (ha.trans hx.symm)) hc
      · simp [List.filter_cons, hx, ha, ih]
      · simp [List.filter_cons, hx, ha, ih]
      · simp [List.filter_cons, hx, ha, ih]

/-- Stability of the area sort: within each area class the original
order is untouched. -/
theorem sortRoomsDesc_filter_key (l : List RoomReq) (k : ℚ) :
    (sortRoomsDesc l).filter (fun r => areaKey r = k) =
      l.filter (fun r => areaKey r = k) := by
  induction l with
  | nil => rfl
  | cons x t ih =>
    calc (sortRoomsDesc (x :: t)).filter (fun r => areaKey r = k)
        = (x :: sortRoomsDesc t).filter (fun r => areaKey r = k) :=
          insertRoomDesc_filter_key x (sortRoomsDesc t) k
      _ = (x :: t).filter (fun r => areaKey r = k) := by
          simp only [List.filter_cons, ih]

theorem packInv_init (bh : ℕ) : PackInv bh initState := by
  refine ⟨List.Pairwise.nil, ?_, ?_⟩ <;> intro r hr <;> simp [initState] at hr

theorem shelfWrap_packInv {bh : ℕ} {st : PackState} (bw w : ℕ)
    (h : PackInv bh st) : PackInv bh (shelfWrap bw st w) := by
  obtain ⟨hpw, hcont, hrow⟩ := h
  unfold shelfWrap
  split_ifs with hc
  · refine ⟨hpw, hcont, ?_⟩
    intro r hr
    left
    rcases hrow r hr with hy | ⟨hy, _, hh⟩
    · simp only
      omega
    · simp only
      omega
  · exact ⟨hpw, hcont, hrow⟩

theorem placeStep_packInv {bw bh : ℕ} {st : PackState}
    (room : String × ℕ × ℕ) (h : PackInv bh st) :
    PackInv bh (placeStep bw bh st room) := by
  obtain ⟨hpw, hcont, hrow⟩ := shelfWrap_packInv bw room.2.1 h
  unfold placeStep
  dsimp only
  split_ifs with hov
  · exact ⟨hpw, hcont, hrow⟩
  · set st1 := shelfWrap bw st room.2.1 with hst1
    refine ⟨?_, ?_, ?_⟩
    · dsimp only
      rw [List.pairwise_append]
      refine ⟨hpw, List.pairwise_singleton _ _, ?_⟩
      intro a ha b hb
      rw [List.mem_singleton] at hb
      subst hb
      unfold roomsDisjoint
      dsimp only
      rcases hrow a ha with hy | ⟨hy, hx, hh⟩
      · omega
      · omega
    · intro r hr
      dsimp only at hr
      rcases List.mem_append.mp hr with hr | hr
      · exact hcont r hr
      · rw [List.mem_singleton] at hr
        subst hr
        dsimp only
        omega
    · intro r hr
      dsimp only at hr ⊢
      rcases List.mem_append.mp hr with hr | hr
      · rcases hrow r hr with hy | ⟨hy, hx, hh⟩
        · exact Or.inl hy
        · exact Or.inr ⟨hy, by omega, le_trans hh (le_max_left _ _)⟩
      · rw [List.mem_singleton] at hr
        subst hr
        dsimp only
        exact Or.inr ⟨rfl, le_refl _, le_max_right _ _⟩

theorem foldl_placeStep_packInv {bw bh : ℕ} (rooms : List (String × ℕ × ℕ))
    (st : PackState) (h : PackInv bh st) :
    PackInv bh (rooms.foldl (placeStep bw bh) st) := by
  induction rooms generalizing st with
  | nil => exact h
  | cons r t ih => exact ih _ (placeStep_packInv r h)

theorem packCells_packInv (bw bh : ℕ) (rooms : List (String × ℕ × ℕ)) :
    PackInv bh (packCells bw bh rooms) :=
  foldl_placeStep_packInv rooms initState (packInv_init bh)

theorem packRooms_eq_packCells (bw bh : ℕ) (cell : ℚ) (rooms : List RoomReq) :
    packRooms bw bh cell rooms =
      packCells bw bh
        (rooms.map fun r => (r.name, toCells r.w_m cell, toCells r.h_m cell)) := by
  unfold packRooms packCells
  rw [List.foldl_map]

theorem packRooms_packInv (bw bh : ℕ) (cell : ℚ) (rooms : List RoomReq) :
    PackInv bh (packRooms bw bh cell rooms) := by
  rw [packRooms_eq_packCells]
  exact packCells_packInv bw bh _

theorem shelfWrap_layout (bw : ℕ) (st : PackState) (w : ℕ) :
    (shelfWrap bw st w).layout = st.layout := by
  unfold shelfWrap
  split_ifs <;> rfl

theorem shelfWrap_cursor_x_add (bw : ℕ) (st : PackState) {w : ℕ} (hwb : w ≤ bw) :
    (shelfWrap bw st w).cursor_x + w ≤ bw := by
  unfold shelfWrap
  split_ifs with hc
  · dsimp only
    omega
  · omega

theorem placeStep_width {bw bh : ℕ} {st : PackState} {room : String × ℕ × ℕ}
    (hwb : room.2.1 ≤ bw) (h : ∀ r ∈ st.layout, r.grid_x + r.grid_w ≤ bw) :
    ∀ r ∈ (placeStep bw bh st room).layout, r.grid_x + r.grid_w ≤ bw := by
  unfold placeStep
  dsimp only
  split_ifs with hov
  · intro r hr
    dsimp only at hr
    rw [shelfWrap_layout] at hr
    exact h r hr
  · intro r hr
    dsimp only at hr
    rcases List.mem_append.mp hr with hr | hr
    · rw [shelfWrap_layout] at hr
      exact h r hr
    · rw [List.mem_singleton] at hr
      subst hr
      dsimp only
      exact shelfWrap_cursor_x_add bw st hwb

theorem foldl_placeStep_width {bw bh : ℕ} (rooms : List (String × ℕ × ℕ))
    (st : PackState) (hwb : ∀ r ∈ rooms, r.2.1 ≤ bw)
    (h : ∀ r ∈ st.layout, r.grid_x + r.grid_w ≤ bw) :
    ∀ r ∈ (rooms.foldl (placeStep bw bh) st).layout, r.grid_x + r.grid_w ≤ bw := by
  induction rooms generalizing st with
  | nil => exact h
  | cons room t ih =>
    exact ih _ (fun r hr => hwb r (List.mem_cons_of_mem room hr))
      (placeStep_width (hwb room (List.mem_cons_self room t)) h)

theorem packRooms_width (bw bh : ℕ) (cell : ℚ) (rooms : List RoomReq)
    (hwb : ∀ r ∈ rooms, toCells r.w_m cell ≤ bw) :
    ∀ r ∈ (packRooms bw bh cell rooms).layout, r.grid_x + r.grid_w ≤ bw := by
  rw [packRooms_eq_packCells]
  refine foldl_placeStep_width _ _ ?_ ?_
  · intro r hr
    rcases List.mem_map.mp hr with ⟨a, ha, rfl⟩
    exact hwb a ha
  · intro r hr
    simp [initState] at hr

theorem built_area_nonneg (cell : ℚ) (layout : List PlacedRoom) :
    0 ≤ built_area cell layout := by
  apply List.sum_nonneg
  intro x hx
  rcases List.mem_map.mp hx with ⟨r, _, rfl⟩
  have : (r.grid_w : ℚ) * r.grid_h * cell * cell =
      ((r.grid_w : ℚ) * r.grid_h) * (cell * cell) := by ring
  rw [this]
  exact mul_nonneg (mul_nonneg (Nat.cast_nonneg _) (Nat.cast_nonneg _))
    (mul_self_nonneg cell)

theorem generateLayout_ok_eq {inp : LayoutInput} {res : LayoutResult}
    (hok : generateLayout inp = .ok res) :
    0 < build_w inp ∧ 0 < build_h inp ∧
    res = { layout := (packedState inp).layout,
            overflow := (packedState inp).overflow,
            cell_m := cellSize inp.grid_snap_cm,
            bw := (build_w inp).toNat, bh := (build_h inp).toNat,
            coverage := built_area (cellSize inp.grid_snap_cm)
                  (packedState inp).layout
                / (inp.plot_width * inp.plot_depth) * 100 } := by
  unfold generateLayout at hok
  by_cases hg : build_w inp ≤ 0 ∨ build_h inp ≤ 0
  · rw [if_pos hg] at hok
    exact Except.noConfusion hok
  · rw [if_neg hg] at hok
    push_neg at hg
    exact ⟨hg.1, hg.2, (Except.ok.inj hok).symm⟩

theorem shelfWrap_overflow (bw : ℕ) (st : PackState) (w : ℕ) :
    (shelfWrap bw st w).overflow = st.overflow := by
  unfold shelfWrap
  split_ifs <;> rfl

theorem placeStep_count (bw bh : ℕ) (st : PackState) (room : String × ℕ × ℕ) :
    (placeStep bw bh st room).layout.length +
        (placeStep bw bh st room).overflow.length
      = st.layout.length + st.overflow.length + 1 := by
  unfold placeStep
  dsimp only
  split_ifs with hov
  · dsimp only
    rw [shelfWrap_layout, shelfWrap_overflow, List.length_append]
    simp only [List.length_singleton]
    omega
  · dsimp only
    rw [shelfWrap_layout, shelfWrap_overflow, List.length_append]
    simp only [List.length_singleton]
    omega

theorem foldl_placeStep_count (bw bh : ℕ) (rooms : List (String × ℕ × ℕ))
    (st : PackState) :
    (rooms.foldl (placeStep bw bh) st).layout.length +
        (rooms.foldl (placeStep bw bh) st).overflow.length
      = st.layout.length + st.overflow.length + rooms.length := by
  induction rooms generalizing st with
  | nil => simp
  | cons r t ih =>
    simp only [List.foldl_cons, List.length_cons]
    rw [ih]
    have := placeStep_count bw bh st r
    omega

theorem packRooms_count (bw bh : ℕ) (cell : ℚ) (rooms : List RoomReq) :
    (packRooms bw bh cell rooms).layout.length +
        (packRooms bw bh cell rooms).overflow.length = rooms.length := by
  rw [packRooms_eq_packCells]
  unfold packCells
  rw [foldl_placeStep_count]
  simp [initState]

/-
## The claims
-/

/-- C1 (counterexample): the containment invariant fails as stated.  On a
buildable 2 × 5 grid (`build_w = 2 > 0`, `build_h = 5 > 0`) the 3-cell-wide
room "Wide" is placed at (0,0) with width 3, so `grid_x + grid_w = 3 > 2 =
build_w`: the placed rectangle leaves the buildable grid on the right. -/
theorem containment_violation_wide_room :
    generateLayout wideRoomInput = .ok wideRoomRes ∧
    0 < build_w wideRoomInput ∧ 0 < build_h wideRoomInput ∧
    ¬(∀ p ∈ wideRoomRes.layout, p.grid_x + p.grid_w ≤ wideRoomRes.bw) := by
  refine ⟨?_, ?_, ?_, ?_⟩
  · norm_num [generateLayout, packedState, build_w, build_h, to_grid, toCells,
      roundHalfEven, cellSize, packRooms, placeStep, shelfWrap, initState,
      sortRoomsDesc, insertRoomDesc, built_area, wideRoomInput, wideRoomRes]
    simp
    norm_num
  · norm_num [build_w, wideRoomInput, to_grid, toCells, roundHalfEven]
  · norm_num [build_h, wideRoomInput, to_grid, toCells, roundHalfEven]
  · decide

/-- C1 (amended): the containment invariant holds whenever no requested
room is wider (in cells) than the buildable width — the shelf wrap never
re-checks a room against `build_w` after resetting `cursor_x` to 0, so
only over-wide rooms can escape.  Vertical containment and non-negativity
of the coordinates need no such hypothesis. -/
theorem containment_of_widths_bounded (inp : LayoutInput) (res : LayoutResult)
    (hok : generateLayout inp = .ok res)
    (hw : ∀ r ∈ inp.rooms, toCells r.w_m (cellSize inp.grid_snap_cm) ≤ res.bw) :
    ∀ p ∈ res.layout, p.grid_x + p.grid_w ≤ res.bw ∧ p.grid_y + p.grid_h ≤ res.bh := by
  obtain ⟨hbw, hbh, rfl⟩ := generateLayout_ok_eq hok
  dsimp only at hw ⊢
  intro p hp
  refine ⟨?_, (packRooms_packInv _ _ _ _).2.1 p hp⟩
  refine packRooms_width _ _ _ _ ?_ p hp
  intro r hr
  exact hw r ((sortRoomsDesc_perm inp.rooms).subset hr)

/-- C1 (witness): on Scenario A the car porch is 6 cells wide on a
20-cell-wide grid, and its placed rectangle is contained. -/
theorem containment_of_widths_bounded_witness :
    (PlacedRoom.mk "Car Porch" 0 0 6 11).grid_x
        + (PlacedRoom.mk "Car Porch" 0 0 6 11).grid_w ≤ scenarioARes.bw ∧
    (PlacedRoom.mk "Car Porch" 0 0 6 11).grid_y
        + (PlacedRoom.mk "Car Porch" 0 0 6 11).grid_h ≤ scenarioARes.bh := by
  have hok : generateLayout scenarioA = .ok scenarioARes := by
    norm_num [generateLayout, packedState, build_w, build_h, to_grid, toCells,
      roundHalfEven, cellSize, packRooms, placeStep, shelfWrap, initState,
      sortRoomsDesc, insertRoomDesc, built_area, scenarioA, scenarioARes]
    simp
    norm_num
  have hw : ∀ r ∈ scenarioA.rooms,
      toCells r.w_m (cellSize scenarioA.grid_snap_cm) ≤ scenarioARes.bw := by
    intro r hr
    rw [show scenarioA.rooms = [⟨"Car Porch", 16/5, 11/2⟩] from rfl,
      List.mem_singleton] at hr
    subst hr
    norm_num [toCells, roundHalfEven, cellSize, scenarioA, scenarioARes]
  exact containment_of_widths_bounded scenarioA scenarioARes hok hw
    (PlacedRoom.mk "Car Porch" 0 0 6 11) (by decide)

/-- C2: in every run of the placement loop the placed rectangles are
pairwise disjoint — for any two distinct placements, the open x-intervals
or the open y-intervals do not intersect. -/
theorem layout_rects_pairwise_disjoint (bw bh : ℕ) (cell : ℚ)
    (rooms : List RoomReq) :
    (packRooms bw bh cell rooms).layout.Pairwise roomsDisjoint :=
  (packRooms_packInv bw bh cell rooms).1

/-- C3 (counterexample): the sort key is the continuous meter area
`w_m * h_m` (line 82), not the grid-cell area.  At cell size 1 m, room "A"
(2.4 × 2.4 m = 5.76 m², 2 × 2 = 4 cells) precedes room "B" (1.6 × 3.4 m =
5.44 m², 2 × 3 = 6 cells) in the source's order, while the spec's
cell-area order lists "B" first. -/
theorem sort_key_is_meter_area_not_cell_area :
    sortRoomsDesc [roomA, roomB] = [roomA, roomB] ∧
    sortRoomsByCellArea 1 [roomA, roomB] = [roomB, roomA] ∧
    sortRoomsDesc [roomA, roomB] ≠ sortRoomsByCellArea 1 [roomA, roomB] := by
  have h1 : sortRoomsDesc [roomA, roomB] = [roomA, roomB] := by
    norm_num [sortRoomsDesc, insertRoomDesc, areaKey, roomA, roomB]
  have h2 : sortRoomsByCellArea 1 [roomA, roomB] = [roomB, roomA] := by
    norm_num [sortRoomsByCellArea, insertRoomDescCells, cellAreaKey, toCells,
      roundHalfEven, roomA, roomB]
  refine ⟨h1, h2, ?_⟩
  rw [h1, h2]
  simp [roomA, roomB]

/-- C3 (amended): the placement order is the stable descending sort by
meter area `w_m * h_m`: it is a permutation of the input, its keys are
non-increasing, and rooms of equal area retain their original relative
order (the sort commutes with filtering any area class). -/
theorem sortRoomsDesc_stable_desc_meter_area (l : List RoomReq) :
    (sortRoomsDesc l).Perm l ∧
    ((sortRoomsDesc l).Sorted fun a b => areaKey b ≤ areaKey a) ∧
    ∀ k : ℚ, (sortRoomsDesc l).filter (fun r => areaKey r = k)
        = l.filter (fun r => areaKey r = k) :=
  ⟨sortRoomsDesc_perm l, sortRoomsDesc_sorted l,
    fun k => sortRoomsDesc_filter_key l k⟩

/-- C4 (counterexample): an overflowed room does not always leave the
cursor untouched.  On a 4 × 4 grid, after "Big" (2 × 2) is placed, room
"Tall" (3 × 9) first triggers the shelf wrap (step a) and only then fails
the vertical check, so it is recorded as overflow but the cursor moved
from (2, 0, 2) to (0, 2, 0): the next room starts a new row. -/
theorem overflow_skip_changes_cursor :
    (4 < (shelfWrap 4 (placeStep 4 4 initState ("Big", 2, 2)) 3).cursor_y + 9) ∧
    (placeStep 4 4 (placeStep 4 4 initState ("Big", 2, 2)) ("Tall", 3, 9)).overflow
        = ["Tall"] ∧
    (placeStep 4 4 (placeStep 4 4 initState ("Big", 2, 2)) ("Tall", 3, 9)).layout
        = (placeStep 4 4 initState ("Big", 2, 2)).layout ∧
    ¬((placeStep 4 4 (placeStep 4 4 initState ("Big", 2, 2)) ("Tall", 3, 9)).cursor_x
          = (placeStep 4 4 initState ("Big", 2, 2)).cursor_x ∧
      (placeStep 4 4 (placeStep 4 4 initState ("Big", 2, 2)) ("Tall", 3, 9)).cursor_y
          = (placeStep 4 4 initState ("Big", 2, 2)).cursor_y ∧
      (placeStep 4 4 (placeStep 4 4 initState ("Big", 2, 2)) ("Tall", 3, 9)).max_row_height
          = (placeStep 4 4 initState ("Big", 2, 2)).max_row_height) := by
  decide

/-- C4 (amended): when the vertical check fails — after the conditional
shelf wrap of step (a) — the room is recorded as overflow and skipped:
the resulting state is exactly the post-wrap state with the room's name
appended to the overflow set, so the layout and the post-wrap cursor are
unchanged and the next room is attempted at the post-wrap cursor (which
the wrap may already have moved to a new row). -/
theorem overflow_skip_after_wrap (bw bh : ℕ) (st : PackState) (name : String)
    (w_cells h_cells : ℕ)
    (hov : bh < (shelfWrap bw st w_cells).cursor_y + h_cells) :
    placeStep bw bh st (name, w_cells, h_cells) =
      { shelfWrap bw st w_cells with
        overflow := (shelfWrap bw st w_cells).overflow ++ [name] } := by
  unfold placeStep
  dsimp only
  rw [if_pos hov]

/-- C4 (witness): the "Tall" room of the counterexample run, through the
amended statement. -/
theorem overflow_skip_after_wrap_witness :
    placeStep 4 4 ⟨2, 0, 2, [⟨"Big", 0, 0, 2, 2⟩], []⟩ ("Tall", 3, 9) =
      { shelfWrap 4 ⟨2, 0, 2, [⟨"Big", 0, 0, 2, 2⟩], []⟩ 3 with
        overflow := (shelfWrap 4 ⟨2, 0, 2, [⟨"Big", 0, 0, 2, 2⟩], []⟩ 3).overflow
          ++ ["Tall"] } :=
  overflow_skip_after_wrap 4 4 ⟨2, 0, 2, [⟨"Big", 0, 0, 2, 2⟩], []⟩ "Tall" 3 9
    (by decide)

/-- C5: whenever the discretized buildable grid is non-positive in either
dimension, the request aborts with the no-buildable-space error before
any room conversion or placement, and no layout — not even a partial
one — is produced. -/
theorem noBuildableSpace_aborts_request (inp : LayoutInput)
    (h : build_w inp ≤ 0 ∨ build_h inp ≤ 0) :
    generateLayout inp = .error .noBuildableSpace := by
  unfold generateLayout
  rw [if_pos h]

/-- C5 (witness): Scenario B — setbacks `left = right = 7` on a 14 m
plot give `build_w = 28 - 14 - 14 = 0` and the request aborts. -/
theorem noBuildableSpace_aborts_request_witness :
    generateLayout scenarioB = .error .noBuildableSpace :=
  noBuildableSpace_aborts_request scenarioB
    (Or.inl (by norm_num [build_w, scenarioB, to_grid, toCells, roundHalfEven]))

/-- C6 (counterexample): on Scenario A the buildable depth is
`48 - 9 - 6 = 33` cells (24 m plot, 4.5 m front and 3 m rear setback at
0.5 m cells), not the 37 cells the claim states. -/
theorem scenarioA_build_h_is_33 :
    build_h scenarioA = 33 ∧ (33 : ℤ) ≠ 37 := by
  refine ⟨?_, by decide⟩
  norm_num [build_h, scenarioA, to_grid, toCells, roundHalfEven]

/-- C6 (amended): Scenario A yields `cell_size_m = 0.5`, `build_w = 20`,
`build_h = 33`, and the 3.2 m × 5.5 m car porch converts to 6 × 11 cells
and is placed at grid position (0,0). -/
theorem scenarioA_values :
    cellSize scenarioA.grid_snap_cm = 1/2 ∧
    build_w scenarioA = 20 ∧
    build_h scenarioA = 33 ∧
    to_grid (16/5) 50 = 6 ∧
    to_grid (11/2) 50 = 11 ∧
    generateLayout scenarioA = .ok scenarioARes ∧
    scenarioARes.layout = [⟨"Car Porch", 0, 0, 6, 11⟩] := by
  refine ⟨?_, ?_, ?_, ?_, ?_, ?_, rfl⟩
  · norm_num [cellSize, scenarioA]
  · norm_num [build_w, scenarioA, to_grid, toCells, roundHalfEven]
  · norm_num [build_h, scenarioA, to_grid, toCells, roundHalfEven]
  · norm_num [to_grid, toCells, roundHalfEven]
    rfl
  · norm_num [to_grid, toCells, roundHalfEven]
    rfl
  · norm_num [generateLayout, packedState, build_w, build_h, to_grid, toCells,
      roundHalfEven, cellSize, packRooms, placeStep, shelfWrap, initState,
      sortRoomsDesc, insertRoomDesc, built_area, scenarioA, scenarioARes]
    simp
    norm_num

/-- C7 (counterexample): a negative measurement is not rejected — there
is no `InvalidMeasurement` check in the code.  With a front setback of
−3 m the request succeeds: the negative setback is converted to 1 cell
and the layout is produced. -/
theorem negative_measurement_not_rejected :
    negSetbackInput.front_setback < 0 ∧
    generateLayout negSetbackInput = .ok negSetbackRes := by
  refine ⟨by norm_num [negSetbackInput], ?_⟩
  norm_num [generateLayout, packedState, build_w, build_h, to_grid, toCells,
    roundHalfEven, cellSize, packRooms, placeStep, shelfWrap, initState,
    sortRoomsDesc, insertRoomDesc, built_area, negSetbackInput, negSetbackRes]
  simp
  norm_num

/-- C7 (amended): the engine performs no measurement validation: a
negative measurement is silently clamped to one grid cell by the
`max(1, round(...))` floor and processing continues — no error is raised
before grid computation. -/
theorem negative_measurement_clamped_to_one_cell (m snap_cm : ℚ)
    (hm : m < 0) (hs : 0 < snap_cm) : to_grid m snap_cm = 1 := by
  unfold to_grid
  exact toCells_of_ratio_nonpos
    (le_of_lt (div_neg_of_neg_of_pos hm (by linarith)))

/-- C7 (witness): a −3 m measurement at 50 cm snap becomes 1 cell. -/
theorem negative_measurement_clamped_witness : to_grid (-3) 50 = 1 :=
  negative_measurement_clamped_to_one_cell (-3) 50 (by norm_num) (by norm_num)

/-- C8: `coverage_pct = built_area_m2 / (plot_width * plot_depth) * 100`
with `built_area_m2` summed over placed rooms only; for positive plot
dimensions the coverage is non-negative, and it is zero when the room
list is empty or when every room overflowed. -/
theorem coverage_nonneg_and_formula (inp : LayoutInput) (res : LayoutResult)
    (hok : generateLayout inp = .ok res)
    (hpw : 0 < inp.plot_width) (hpd : 0 < inp.plot_depth) :
    res.coverage = built_area res.cell_m res.layout
        / (inp.plot_width * inp.plot_depth) * 100 ∧
    0 ≤ res.coverage ∧
    (inp.rooms = [] → res.coverage = 0) ∧
    (res.overflow.length = inp.rooms.length → res.coverage = 0) := by
  obtain ⟨hbw, hbh, rfl⟩ := generateLayout_ok_eq hok
  refine ⟨rfl, ?_, ?_, ?_⟩
  · exact mul_nonneg
      (div_nonneg (built_area_nonneg _ _) (le_of_lt (mul_pos hpw hpd)))
      (by norm_num)
  · intro hempty
    dsimp only
    simp [packedState, packRooms, sortRoomsDesc, initState, built_area, hempty]
  · intro hlen
    dsimp only at hlen ⊢
    have hcount : (packedState inp).layout.length +
        (packedState inp).overflow.length = (sortRoomsDesc inp.rooms).length :=
      packRooms_count (build_w inp).toNat (build_h inp).toNat
        (cellSize inp.grid_snap_cm) (sortRoomsDesc inp.rooms)
    have hslen : (sortRoomsDesc inp.rooms).length = inp.rooms.length :=
      (sortRoomsDesc_perm inp.rooms).length_eq
    have hzero : (packedState inp).layout.length = 0 := by omega
    rw [List.length_eq_zero] at hzero
    simp [hzero, built_area]

/-- C8 (witness): Scenario A — coverage 275/56 % is non-negative and
satisfies the formula. -/
theorem coverage_nonneg_and_formula_witness :
    scenarioARes.coverage = built_area scenarioARes.cell_m scenarioARes.layout
        / (scenarioA.plot_width * scenarioA.plot_depth) * 100 ∧
    0 ≤ scenarioARes.coverage := by
  have hok : generateLayout scenarioA = .ok scenarioARes := by
    norm_num [generateLayout, packedState, build_w, build_h, to_grid, toCells,
      roundHalfEven, cellSize, packRooms, placeStep, shelfWrap, initState,
      sortRoomsDesc, insertRoomDesc, built_area, scenarioA, scenarioARes]
    simp
    norm_num
  have h := coverage_nonneg_and_formula scenarioA scenarioARes hok
    (by norm_num [scenarioA]) (by norm_num [scenarioA])
  exact ⟨h.1, h.2.1⟩

/-- C9: `to_grid` maps a zero measurement to 1 cell for any positive snap
size, so a zero setback still subtracts one full cell from the buildable
dimension. -/
theorem zero_measurement_one_cell (snap_cm : ℚ) (_hs : 0 < snap_cm) :
    to_grid 0 snap_cm = 1 ∧
    ∀ inp : LayoutInput, inp.grid_snap_cm = snap_cm → inp.left_setback = 0 →
      build_w inp = (to_grid inp.plot_width snap_cm : ℤ) - 1
        - to_grid inp.right_setback snap_cm := by
  refine ⟨to_grid_zero snap_cm, ?_⟩
  intro inp hsnap hleft
  unfold build_w
  rw [hsnap, hleft, to_grid_zero snap_cm]
  norm_num

/-- C9 (witness): with a zero left setback on Scenario A's plot, one cell
is subtracted for it. -/
theorem zero_measurement_one_cell_witness :
    to_grid 0 50 = 1 ∧
    build_w zeroSetbackInput =
      (to_grid zeroSetbackInput.plot_width 50 : ℤ) - 1
        - to_grid zeroSetbackInput.right_setback 50 := by
  have h := zero_measurement_one_cell 50 (by norm_num)
  exact ⟨h.1, h.2 zeroSetbackInput rfl rfl⟩

/-- C10: when `meters / cell` lands exactly on a half-cell boundary
`n + 1/2`, the conversion rounds to the even neighbour (Python's
`round` is round-half-to-even), floored at one cell. -/
theorem half_boundary_rounds_to_even (m cell : ℚ) (n : ℤ)
    (_hc : 0 < cell) (h : m / cell = n + 1/2) :
    toCells m cell = (max 1 (if n % 2 = 0 then n else n + 1)).toNat :=
  toCells_half_boundary m cell n h

/-- C10 (witness): a ratio of 2.5 cells (1.25 m at 0.5 m cells) rounds
down to the even value 2. -/
theorem half_boundary_rounds_to_even_witness : toCells (5/4) (1/2) = 2 :=
  (half_boundary_rounds_to_even (5/4) (1/2) 2 (by norm_num) (by norm_num)).trans
    (by decide)
